import Mathlib

/-!
Verification of the merge algebra of the `rust-stats` library (`src/lib.rs`).

The embedding is shallow: the `Commute` trait becomes a type class whose
`merge` is a pure binary operation (Rust's in-place `self.merge(other)`
becomes `merge s other` returning the new value of `self`), the provided
`consume` method becomes a recursive fold mirroring the `for` loop, and
`merge_all` matches the stream head exactly like the source.  Operations
that may panic (`assert_eq!` in `Vec::merge`, `unreachable!()` in
`Result::merge`) return `Option`, with `none` modelling the panic.
`Partial<T>::cmp` is embedded as a function of the wrapped values,
parametrised by the underlying `partial_cmp`.
-/

namespace Stats

/-- `impl<T: PartialOrd> Ord for Partial<T>`:
`fn cmp(&self, other) -> Ordering { self.partial_cmp(other).unwrap_or(Less) }`.
`pcmp` is the underlying `partial_cmp` of the wrapped type `T`. -/
def Partial.cmp {T : Type} (pcmp : T → T → Option Ordering) (a b : T) : Ordering :=
  (pcmp a b).getD Ordering.lt

/-- A model of IEEE-754 floating point values for ordering purposes:
`none` plays the role of NaN, `some q` of an ordinary (comparable) value. -/
abbrev FP : Type := Option Int

/-- Total comparison of the comparable values (the `Ord`-style comparison
underlying `PartialOrd` on numbers). -/
def icmp (a b : Int) : Ordering :=
  if a < b then Ordering.lt else if a = b then Ordering.eq else Ordering.gt

/-- `partial_cmp` on the float model: NaN (`none`) is incomparable with
everything, including itself; comparable values compare by `icmp`. -/
def fcmp : FP → FP → Option Ordering
  | some a, some b => some (icmp a b)
  | _, _ => none

/-- The `Commute` trait: types with a `merge` operation.  The in-place
`fn merge(&mut self, other: Self)` becomes a pure `merge : α → α → α`. -/
class Commute (α : Type) where
  merge : α → α → α

/-- The provided method `fn consume<I: Iterator<Self>>(&mut self, other: I)`:
`for v in other { self.merge(v) }`, with the iterator as a list. -/
def Commute.consume {α : Type} [Commute α] : α → List α → α
  | s, [] => s
  | s, v :: rest => Commute.consume (Commute.merge s v) rest

/-- `pub fn merge_all<T: Commute, I: Iterator<T>>(mut it: I) -> Option<T>`:
`match it.next() { None => None, Some(mut init) => { init.consume(it); Some(init) } }`. -/
def merge_all {α : Type} [Commute α] : List α → Option α
  | [] => none
  | init :: rest => some (Commute.consume init rest)

/-- `impl<T: Commute> Commute for Option<T>`: match on `self`; in the `None`
arm, `*self = other`; in the `Some(ref mut v1)` arm,
`other.map(|v2| v1.merge(v2))` merges into `v1` when `other` is `Some` and
leaves `v1` untouched when `other` is `None`. -/
def optionMerge {α : Type} [Commute α] (s other : Option α) : Option α :=
  match s with
  | none => other
  | some v1 =>
    match other with
    | some v2 => some (Commute.merge v1 v2)
    | none => some v1

instance instCommuteOption {α : Type} [Commute α] : Commute (Option α) :=
  ⟨optionMerge⟩

/-- Rust's `Result<T, E>`. -/
inductive Result (T E : Type) where
  | ok : T → Result T E
  | err : E → Result T E
deriving DecidableEq

/-- `Result::is_err`. -/
def Result.isErr {T E : Type} : Result T E → Bool
  | .err _ => true
  | .ok _ => false

/-- `impl<T: Commute, E> Commute for Result<T, E>`: the early-return guard
`if !self.is_err() && other.is_err() { *self = other; return; }`, then the
match where `Err(_) => {}` keeps `self` and the inner `Ok`/`Err` arm is
`unreachable!()`.  `none` models reaching the `unreachable!()` panic. -/
def Result.merge {T E : Type} [Commute T] (s other : Result T E) :
    Option (Result T E) :=
  if !s.isErr && other.isErr then some other
  else
    match s with
    | .err e => some (.err e)
    | .ok v1 =>
      match other with
      | .ok v2 => some (.ok (Commute.merge v1 v2))
      | .err _ => none

/-- `impl<T: Commute> Commute for Vec<T>`: `assert_eq!(self.len(), other.len())`
(modelled by `none` on mismatch), then elementwise merge over the zipped
iterators. -/
def Vec.merge {α : Type} [Commute α] (s other : List α) : Option (List α) :=
  if s.length = other.length then some (List.zipWith Commute.merge s other)
  else none

/-- A concrete commutative, associative payload statistic used to instantiate
the generic theorems: a running count merged by addition (as the counts of
the frequency counter are). -/
instance instCommuteNat : Commute Nat :=
  ⟨Nat.add⟩

/- ------------------------------------------------------------------ -/
/- Theorems                                                            -/
/- ------------------------------------------------------------------ -/

/-- Helper: `consume` is a left fold of `merge`. -/
theorem consume_eq_foldl {α : Type} [Commute α] (s : α) (xs : List α) :
    Commute.consume s xs = List.foldl Commute.merge s xs := by
  induction xs generalizing s with
  | nil => rfl
  | cons v rest ih => simpa [Commute.consume] using ih (Commute.merge s v)

/-- Claim C7: merging `None` with `x` yields `x`; merging `Some a` with
`Some b` yields `Some (merge a b)`; merging `Some a` with `None` leaves
`Some a` unchanged. -/
theorem option_merge_spec {α : Type} [Commute α] :
    (∀ x : Option α, Commute.merge none x = x) ∧
    (∀ a b : α, Commute.merge (some a) (some b) = some (Commute.merge a b)) ∧
    (∀ a : α, Commute.merge (some a) (none : Option α) = some a) :=
  ⟨fun _ => rfl, fun _ _ => rfl, fun _ => rfl⟩

/-- Claim C9: `consume s [x1, ..., xn]` leaves `s` in the state obtained by
merging `x1`, then `x2`, ..., then `xn` into it in sequence order, i.e. the
left fold of `merge` over the sequence. -/
theorem consume_spec {α : Type} [Commute α] (s : α) (xs : List α) :
    Commute.consume s xs = List.foldl Commute.merge s xs :=
  consume_eq_foldl s xs

/-- Claim C8: `merge_all` returns `none` on the empty sequence, and otherwise
`some` of the first element with every subsequent element merged into it in
order. -/
theorem merge_all_spec {α : Type} [Commute α] :
    (merge_all ([] : List α) = none) ∧
    (∀ (x : α) (xs : List α),
      merge_all (x :: xs) = some (List.foldl Commute.merge x xs)) :=
  ⟨rfl, fun x xs => congrArg some (consume_eq_foldl x xs)⟩

/-- Claim C10: `Result::merge` never reaches its `unreachable!()` branch —
it returns normally on every input — and when both sides are errors the left
error value is retained unchanged. -/
theorem result_merge_no_unreachable {T E : Type} [Commute T] :
    (∀ s other : Result T E, (Result.merge s other).isSome = true) ∧
    (∀ e1 e2 : E,
      Result.merge (Result.err e1 : Result T E) (Result.err e2) =
        some (Result.err e1)) := by
  constructor
  · intro s other
    rcases s with a | e <;> rcases other with b | f <;>
      simp [Result.merge, Result.isErr]
  · intro e1 e2
    simp [Result.merge, Result.isErr]

/-- Claim C5: with an `Ok a` left side, merging with `Err e` sets the result
to `Err e` (first error wins), and merging with `Ok b` sets the result to
`Ok` of the merged payloads. -/
theorem result_ok_merge_spec {T E : Type} [Commute T] :
    (∀ (a : T) (e : E),
      Result.merge (Result.ok a : Result T E) (Result.err e) =
        some (Result.err e)) ∧
    (∀ a b : T,
      Result.merge (Result.ok a : Result T E) (Result.ok b) =
        some (Result.ok (Commute.merge a b))) := by
  constructor
  · intro a e
    simp [Result.merge, Result.isErr]
  · intro a b
    simp [Result.merge, Result.isErr]

/-- Claim C6: on equal lengths, `Vec::merge` returns the vector whose element
at each index `i` is the merge of the two elements at index `i`; on unequal
lengths it panics (modelled by `none`) and never returns normally. -/
theorem vec_merge_spec (α : Type) [Commute α] (xs ys : List α) :
    (xs.length = ys.length →
      ∃ zs, Vec.merge xs ys = some zs ∧ zs.length = xs.length ∧
        ∀ (i : Nat) (h1 : i < xs.length) (h2 : i < ys.length)
          (h3 : i < zs.length),
          zs[i] = Commute.merge xs[i] ys[i]) ∧
    (xs.length ≠ ys.length → Vec.merge xs ys = none) := by
  constructor
  · intro h
    refine ⟨List.zipWith Commute.merge xs ys, ?_, ?_, ?_⟩
    · simp [Vec.merge, h]
    · simp [List.length_zipWith, h]
    · intro i h1 h2 h3
      simp
  · intro h
    simp [Vec.merge, h]

/-- Witness for C6 at `[1, 2]` and `[10, 20]` (equal lengths) and at `[1]`
and `[]` (unequal lengths). -/
theorem vec_merge_spec_witness :
    (∃ zs, Vec.merge ([1, 2] : List Nat) [10, 20] = some zs ∧
      zs.length = ([1, 2] : List Nat).length ∧
      ∀ (i : Nat) (_h1 : i < ([1, 2] : List Nat).length)
        (_h2 : i < ([10, 20] : List Nat).length) (h3 : i < zs.length),
        zs[i] = Commute.merge ([1, 2] : List Nat)[i] ([10, 20] : List Nat)[i]) ∧
    Vec.merge ([1] : List Nat) [] = none :=
  ⟨(vec_merge_spec Nat [1, 2] [10, 20]).1 rfl,
   (vec_merge_spec Nat [1] []).2 (by decide)⟩

/-- Counterexample to claim C4: merging a `Result` whose left side is
`Err 0` with the successful right side `Ok 1` does not panic — it returns
normally with the left error retained. -/
theorem result_err_ok_cex :
    Result.merge (Result.err 0 : Result Nat Nat) (Result.ok 1) =
      some (Result.err 0) ∧
    (Result.merge (Result.err 0 : Result Nat Nat) (Result.ok 1)).isSome
      = true := by
  constructor <;> decide

/-- Claim C4 amended: merging a `Result` whose left side is an error with a
successful (`Ok`) right side returns normally, leaving the left error value
unchanged and discarding the right side; no assertion failure occurs (the
`unreachable!()` branch guards only the inner `Ok`-left/`Err`-right case). -/
theorem result_err_ok_amended {T E : Type} [Commute T] (e : E) (a : T) :
    Result.merge (Result.err e : Result T E) (Result.ok a) =
      some (Result.err e) := by
  simp [Result.merge, Result.isErr]

/-- Counterexample to claim C2: merging the nonempty vector `[0]` with the
default (empty) vector panics on the length assertion instead of leaving
`[0]` unchanged. -/
theorem default_identity_cex :
    Vec.merge ([0] : List Nat) [] = none ∧
    Vec.merge ([0] : List Nat) [] ≠ some [0] := by
  constructor <;> decide

/-- Claim C2 amended: `None` is a left and right identity of `Option::merge`;
for `Vec`, the default empty vector is an identity only on the empty vector —
merging a nonempty vector with the empty default, on either side, is a
length-mismatch panic. -/
theorem default_identity_amended {α : Type} [Commute α] :
    (∀ x : Option α, Commute.merge none x = x ∧ Commute.merge x none = x) ∧
    (Vec.merge ([] : List α) [] = some []) ∧
    (∀ (x : α) (xs : List α),
      Vec.merge (x :: xs) [] = none ∧ Vec.merge [] (x :: xs) = none) := by
  refine ⟨fun x => ⟨rfl, ?_⟩, rfl, fun x xs => ⟨?_, ?_⟩⟩
  · cases x <;> rfl
  · simp [Vec.merge]
  · simp [Vec.merge]

/-- Counterexample to claim C1: `Result::merge` is not commutative even with
a commutative, associative payload merge (`Nat` counts merged by addition) —
merging two error states keeps the left error, so `Err 0` and `Err 1` merge
to observably different states in the two orders. -/
theorem merge_comm_cex :
    Result.merge (Result.err 0 : Result Nat Nat) (Result.err 1) =
      some (Result.err 0) ∧
    Result.merge (Result.err 1 : Result Nat Nat) (Result.err 0) =
      some (Result.err 1) ∧
    some (Result.err 0 : Result Nat Nat) ≠ some (Result.err 1) := by
  refine ⟨by decide, by decide, by decide⟩

/-- Claim C1 amended: with a commutative, associative payload merge,
`Option::merge` is commutative and associative; `Result::merge` is
associative across any grouping, and commutative except when both sides are
error states (where the left error is kept). -/
theorem merge_comm_assoc_amended (α E : Type) [Commute α]
    (hcomm : ∀ a b : α, Commute.merge a b = Commute.merge b a)
    (hassoc : ∀ a b c : α,
      Commute.merge (Commute.merge a b) c =
        Commute.merge a (Commute.merge b c)) :
    (∀ o1 o2 : Option α, Commute.merge o1 o2 = Commute.merge o2 o1) ∧
    (∀ o1 o2 o3 : Option α,
      Commute.merge (Commute.merge o1 o2) o3 =
        Commute.merge o1 (Commute.merge o2 o3)) ∧
    (∀ r1 r2 r3 : Result α E,
      (Result.merge r1 r2).bind (fun x => Result.merge x r3) =
        (Result.merge r2 r3).bind (fun y => Result.merge r1 y)) ∧
    (∀ r1 r2 : Result α E, ¬(r1.isErr = true ∧ r2.isErr = true) →
      Result.merge r1 r2 = Result.merge r2 r1) := by
  refine ⟨?_, ?_, ?_, ?_⟩
  · intro o1 o2
    rcases o1 with _ | a <;> rcases o2 with _ | b
    · rfl
    · rfl
    · rfl
    · exact congrArg some (hcomm a b)
  · intro o1 o2 o3
    rcases o1 with _ | a <;> rcases o2 with _ | b <;> rcases o3 with _ | c <;>
      first
        | rfl
        | exact congrArg some (hassoc a b c)
  · intro r1 r2 r3
    rcases r1 with a | e1 <;> rcases r2 with b | e2 <;> rcases r3 with c | e3 <;>
      simp [Result.merge, Result.isErr, hassoc]
  · intro r1 r2 h
    rcases r1 with a | e1 <;> rcases r2 with b | e2
    · exact congrArg (fun v => some (Result.ok v)) (hcomm a b)
    · simp [Result.merge, Result.isErr]
    · simp [Result.merge, Result.isErr]
    · exact absurd ⟨rfl, rfl⟩ h

/-- Witness for the amended C1 at the payload `Nat` with additive merge:
commutativity of the optional merge at `some 2` and `some 3`, and of the
result merge at `Ok 1` versus `Err 2`. -/
theorem merge_comm_assoc_amended_witness :
    Commute.merge (some 2 : Option Nat) (some 3) =
      Commute.merge (some 3 : Option Nat) (some 2) ∧
    Result.merge (Result.ok 1 : Result Nat Nat) (Result.err 2) =
      Result.merge (Result.err 2 : Result Nat Nat) (Result.ok 1) :=
  ⟨(merge_comm_assoc_amended Nat Nat (fun a b => Nat.add_comm a b)
      (fun a b c => Nat.add_assoc a b c)).1 (some 2) (some 3),
   ((merge_comm_assoc_amended Nat Nat (fun a b => Nat.add_comm a b)
      (fun a b c => Nat.add_assoc a b c)).2.2.2 (Result.ok 1) (Result.err 2)
      (by decide))⟩

/-- Helper: `icmp` answers `lt` exactly on strictly ordered pairs. -/
theorem icmp_lt_iff (a b : Int) : icmp a b = Ordering.lt ↔ a < b := by
  unfold icmp
  split_ifs <;> constructor <;> intro h <;>
    first | rfl | contradiction | omega

/-- Helper: `icmp` answers `gt` exactly on strictly reverse-ordered pairs. -/
theorem icmp_gt_iff (a b : Int) : icmp a b = Ordering.gt ↔ b < a := by
  unfold icmp
  split_ifs <;> constructor <;> intro h <;>
    first | rfl | contradiction | omega

/-- Counterexample to claim C3: on the float model (`none` playing NaN, a
value on which the underlying partial comparison is undefined),
`Partial::cmp` is not reflexive (NaN compares `Less` to itself, not `Equal`),
not antisymmetric (NaN and `1` compare `Less` in both orders), and not
transitive (`2 < NaN` and `NaN < 1` but `2 > 1`). -/
theorem partial_cmp_total_cex :
    (Partial.cmp fcmp (none : FP) none = Ordering.lt ∧
      ¬ Partial.cmp fcmp (none : FP) none = Ordering.eq) ∧
    (Partial.cmp fcmp (none : FP) (some 1) = Ordering.lt ∧
      ¬ Partial.cmp fcmp (some 1 : FP) none = Ordering.gt) ∧
    (Partial.cmp fcmp (some 2 : FP) none = Ordering.lt ∧
      Partial.cmp fcmp (none : FP) (some 1) = Ordering.lt ∧
      ¬ Partial.cmp fcmp (some 2 : FP) (some 1) = Ordering.lt) := by
  refine ⟨⟨by decide, by decide⟩, ⟨by decide, by decide⟩,
    by decide, by decide, by decide⟩

/-- Claim C3 amended: `Partial::cmp` always returns an ordering, and on
wrapped values whose underlying comparisons are defined (non-NaN values of
the float model) it is reflexive, antisymmetric and transitive; on a pair
whose underlying comparison is undefined it resolves to `Less` in both
orders, which breaks reflexivity, antisymmetry and transitivity at NaN. -/
theorem partial_cmp_total_on_defined (a b c : FP)
    (ha : a.isSome = true) (hb : b.isSome = true) (hc : c.isSome = true) :
    Partial.cmp fcmp a a = Ordering.eq ∧
    (Partial.cmp fcmp a b = Ordering.lt →
      Partial.cmp fcmp b a = Ordering.gt) ∧
    (Partial.cmp fcmp a b = Ordering.lt →
      Partial.cmp fcmp b c = Ordering.lt →
      Partial.cmp fcmp a c = Ordering.lt) := by
  rcases a with _ | x
  · exact absurd ha (by decide)
  rcases b with _ | y
  · exact absurd hb (by decide)
  rcases c with _ | z
  · exact absurd hc (by decide)
  refine ⟨?_, ?_, ?_⟩
  · simp [Partial.cmp, fcmp, icmp]
  · intro h
    have hxy : x < y := (icmp_lt_iff x y).1 (by simpa [Partial.cmp, fcmp] using h)
    simp only [Partial.cmp, fcmp, Option.getD_some]
    exact (icmp_gt_iff y x).2 hxy
  · intro h1 h2
    have hxy : x < y := (icmp_lt_iff x y).1 (by simpa [Partial.cmp, fcmp] using h1)
    have hyz : y < z := (icmp_lt_iff y z).1 (by simpa [Partial.cmp, fcmp] using h2)
    simp only [Partial.cmp, fcmp, Option.getD_some]
    exact (icmp_lt_iff x z).2 (by omega)

/-- Witness for the amended C3 at the defined (non-NaN) values `1`, `2`
and `3`. -/
theorem partial_cmp_total_on_defined_witness :
    Partial.cmp fcmp (some 1 : FP) (some 1) = Ordering.eq ∧
    (Partial.cmp fcmp (some 1 : FP) (some 2) = Ordering.lt →
      Partial.cmp fcmp (some 2 : FP) (some 1) = Ordering.gt) ∧
    (Partial.cmp fcmp (some 1 : FP) (some 2) = Ordering.lt →
      Partial.cmp fcmp (some 2 : FP) (some 3) = Ordering.lt →
      Partial.cmp fcmp (some 1 : FP) (some 3) = Ordering.lt) :=
  partial_cmp_total_on_defined (some 1) (some 2) (some 3) rfl rfl rfl

end Stats
